import Mathlib

set_option maxRecDepth 8000

/-!
Shallow embedding of `purechance` (`src/purechance/core.py`), a small
deterministic-randomness utility: seed resolution (`get_rng`), sampling with
and without replacement (`draw`), bounded integer streams (`integers`),
biased coin flips (`coinflip`) and shuffling (`shuffle`).

The Python code draws from `random.Random`, an opaque external generator
(standard library, not part of this repository).  The spec treats it as an
opaque mutable object exposing a uniform-float draw, weighted/unweighted
choice, and a bounded-integer draw.  We model it as an explicit 64-bit
linear-congruential state machine threaded through every operation: the
concrete constants are irrelevant to every property below, which only
depend on the documented contracts (draws lie in the stated ranges, the
state advances deterministically, `sample` picks distinct positions).
Mutation of a generator becomes explicit state passing: every operation
returns the final generator state next to its result, and a raised
`ValueError` becomes an `Except.error` carrying the kind of failure the
spec names.
-/

/-- The error kinds of the spec (all raised as `ValueError` in Python,
distinguished by their message). -/
inductive Err where
  | invalidSeed
  | invalidBias
  | invalidSize
  | emptyRange
deriving DecidableEq, Repr

/-- Model of the opaque `random.Random` generator: a 64-bit
linear-congruential state machine.  The spec treats the generator as opaque,
so only the contracts of its draws matter, not the concrete recurrence. -/
structure RNG where
  state : Nat
deriving DecidableEq, Repr

/-- Advance the generator one step (one consumption of entropy). -/
def RNG.step (g : RNG) : RNG :=
  ⟨(6364136223846793005 * g.state + 1442695040888963407) % 2 ^ 64⟩

/-- Model of `random.Random(n)`: a fresh generator deterministically seeded
by the integer `n`. -/
def RNG.ofInt (n : Int) : RNG := ⟨n.natAbs % 2 ^ 64⟩

/-- Model of `random.Random(None)`: a fresh generator from unspecified
system entropy.  No claim depends on its value, so it is a fixed state. -/
def RNG.ofNone : RNG := ⟨0x9E3779B97F4A7C15⟩

/-- Model of `random._randbelow(n)`: one bounded-integer draw, consuming one
step of entropy.  Callers only invoke it with `n > 0`, in which case the
result is `< n`. -/
def RNG.randbelow (g : RNG) (n : Nat) : Nat × RNG :=
  (g.step.state % n, g.step)

/-- Model of `random.random()`: one uniform draw in `[0, 1)`, a 53-bit
numerator over `2 ^ 53` (CPython doubles are such dyadic rationals). -/
def RNG.randomQ (g : RNG) : ℚ × RNG :=
  (((g.step.state % 2 ^ 53 : ℕ) : ℚ) / (2 ^ 53 : ℚ), g.step)

/-- Model of `random.randrange(lower, upper)`: draws uniformly from the
half-open interval `[lower, upper)`; raises (`EmptyRange`) when the
interval is empty. -/
def RNG.randrange (g : RNG) (lower upper : Int) : Except Err (Int × RNG) :=
  if upper ≤ lower then .error .emptyRange
  else
    let w := (upper - lower).toNat
    let jg := g.randbelow w
    .ok (lower + (jg.1 : Int), jg.2)

/-- Model of `random.choices(items, k)`: `k` independent uniform draws with
replacement.  The `[]` branch with positive `k` is unreachable from `draw`,
which short-circuits on empty `items`. -/
def RNG.choices (g : RNG) (items : List α) : Nat → List α × RNG
  | 0 => ([], g)
  | k + 1 =>
    match items with
    | [] => ([], g)
    | x :: xs =>
      let jg := g.randbelow (xs.length + 1)
      let rest := jg.2.choices (x :: xs) k
      ((x :: xs).getD jg.1 x :: rest.1, rest.2)

/-- Without-replacement selection loop of `random.sample`: repeatedly draw a
position of the remaining pool, emit the element there, and remove it from
the pool.  The `[]` branch with positive `k` is unreachable: `sample`
checks `k ≤ len(pool)` first. -/
def RNG.sampleAux : RNG → List α → Nat → List α × RNG
  | g, _, 0 => ([], g)
  | g, [], _ + 1 => ([], g)
  | g, x :: xs, k + 1 =>
    let jg := g.randbelow (xs.length + 1)
    let rest := RNG.sampleAux jg.2 ((x :: xs).eraseIdx jg.1) k
    ((x :: xs).getD jg.1 x :: rest.1, rest.2)
termination_by structural _ _ k => k

/-- Model of `random.sample(items, k)`: validates `k ≤ len(items)` before
drawing (raising `InvalidSize`, a `ValueError`, otherwise), then performs a
without-replacement draw of `k` distinct positions. -/
def RNG.sample (g : RNG) (items : List α) (k : Nat) :
    Except Err (List α) × RNG :=
  if items.length < k then (.error .invalidSize, g)
  else
    let r := g.sampleAux items k
    (.ok r.1, r.2)

/-- The `Seed` type of `core.py`: `int | random.Random | None`, plus a
constructor `other` standing for a runtime value of any other type (Python
is dynamically typed, so such values can reach `get_rng`). -/
inductive Seed where
  | none
  | int (n : Int)
  | rng (g : RNG)
  | other
deriving DecidableEq, Repr

/-- `get_rng(seed)` from `core.py`: an existing generator instance is
returned unchanged; `None` or an integer constructs a fresh generator;
anything else raises (`InvalidSeed`). -/
def get_rng : Seed → Except Err RNG
  | .rng g => .ok g
  | .none => .ok RNG.ofNone
  | .int n => .ok (RNG.ofInt n)
  | .other => .error .invalidSeed

/-- `coinflip(bias, seed)` from `core.py`: validates `0 <= bias <= 1` first
(raising `InvalidBias`), then resolves the seed and compares one uniform
draw against `bias`.  The Python `float` bias is modelled as a rational. -/
def coinflip (bias : ℚ) (seed : Seed) : Except Err (Bool × RNG) :=
  if ¬(0 ≤ bias ∧ bias ≤ 1) then .error .invalidBias
  else
    match get_rng seed with
    | .error e => .error e
    | .ok rng =>
      let ug := rng.randomQ
      .ok (decide (ug.1 < bias), ug.2)

/-- Body of `draw` after seed resolution, keeping the final generator state
observable even on failure: validates `size >= 0`, short-circuits on empty
input or zero size, then delegates to `choices` or `sample`. -/
def drawR (items : List α) ( replace : Bool) (size : Int) (rng : RNG) :
    Except Err (List α) × RNG :=
  if size < 0 then (.error .invalidSize, rng)
  else if items.length = 0 ∨ size = 0 then (.ok [], rng)
  else if replace then
    let r := rng.choices items size.toNat
    (.ok r.1, r.2)
  else rng.sample items size.toNat

/-- `draw(items, replace, size, seed)` from `core.py`: resolves the seed
first (so an invalid seed raises before size validation), then runs the
body; any failure propagates as the raised error. -/
def draw (items : List α) ( replace : Bool) (size : Int) (seed : Seed) :
    Except Err (List α × RNG) :=
  match get_rng seed with
  | .error e => .error e
  | .ok g =>
    match drawR items replace size g with
    | (.error e, _) => .error e
    | (.ok r, g') => .ok (r, g')

/-- The lazy sequence returned by `integers`: bounds, a remaining count and
the generator state, advanced one element at a time. -/
structure IntStream where
  remaining : Nat
  lower : Int
  upper : Int
  g : RNG
deriving DecidableEq, Repr

/-- `integers(size, lower, upper, seed)` from `core.py`: the seed is
resolved eagerly at construction (so `InvalidSeed` is raised immediately),
while the bounds are not inspected until an element is drawn.  `range(size)`
with negative `size` is empty, hence `size.toNat`. -/
def integers (size lower upper : Int) (seed : Seed) : Except Err IntStream :=
  match get_rng seed with
  | .error e => .error e
  | .ok g => .ok ⟨size.toNat, lower, upper, g⟩

/-- One step of consuming the lazy sequence: `none` when exhausted,
otherwise the result of one `randrange` draw (which is where an empty range
raises `EmptyRange`). -/
def IntStream.next (s : IntStream) : Option (Except Err (Int × IntStream)) :=
  match s.remaining with
  | 0 => Option.none
  | n + 1 =>
    match s.g.randrange s.lower s.upper with
    | .error e => some (.error e)
    | .ok vg => some (.ok (vg.1, ⟨n, s.lower, s.upper, vg.2⟩))

/-- Consuming `n` elements from generator state `g`: the list of drawn
integers and the final state, or the error raised mid-consumption. -/
def intsAux (g : RNG) (lower upper : Int) : Nat → Except Err (List Int × RNG)
  | 0 => .ok ([], g)
  | n + 1 =>
    match g.randrange lower upper with
    | .error e => .error e
    | .ok vg =>
      match intsAux vg.2 lower upper n with
      | .error e => .error e
      | .ok lg => .ok (vg.1 :: lg.1, lg.2)

/-- Full consumption of the lazy sequence. -/
def IntStream.toList (s : IntStream) : Except Err (List Int × RNG) :=
  intsAux s.g s.lower s.upper s.remaining

/-- `shuffle(items, seed)` from `core.py`: a without-replacement draw of
size `len(items)`. -/
def shuffle (items : List α) (seed : Seed) : Except Err (List α × RNG) :=
  draw items false (items.length : Int) seed

/-- The first `k` outputs of a generator (its subsequent draw sequence),
used to state same-seed determinism. -/
def RNG.outputs (g : RNG) : Nat → List Nat
  | 0 => []
  | k + 1 => g.step.state :: g.step.outputs k

/-! ## Helper lemmas about the sampling loop -/

theorem getD_cons_eraseIdx_perm :
    ∀ (l : List α) (j : Nat), j < l.length → ∀ d : α,
      (l.getD j d :: l.eraseIdx j).Perm l
  | [], _, h, _ => absurd h (by simp)
  | x :: xs, 0, _, d => by simp
  | x :: xs, j + 1, h, d => by
    have hj : j < xs.length := by simpa using h
    have ih := getD_cons_eraseIdx_perm xs j hj d
    simp only [List.getD_cons_succ, List.eraseIdx_cons_succ]
    exact (List.Perm.swap x (xs.getD j d) (xs.eraseIdx j)).trans (ih.cons x)

theorem sampleAux_zero (g : RNG) (pool : List α) :
    RNG.sampleAux g pool 0 = ([], g) := by cases pool <;> rfl

theorem sampleAux_nil (g : RNG) (k : Nat) :
    RNG.sampleAux g ([] : List α) (k + 1) = ([], g) := rfl

theorem sampleAux_cons (g : RNG) (x : α) (xs : List α) (k : Nat) :
    RNG.sampleAux g (x :: xs) (k + 1) =
      ((x :: xs).getD (g.randbelow (xs.length + 1)).1 x ::
        (RNG.sampleAux (g.randbelow (xs.length + 1)).2
          ((x :: xs).eraseIdx (g.randbelow (xs.length + 1)).1) k).1,
       (RNG.sampleAux (g.randbelow (xs.length + 1)).2
          ((x :: xs).eraseIdx (g.randbelow (xs.length + 1)).1) k).2) := rfl

theorem sampleAux_coe_le :
    ∀ (k : Nat) (g : RNG) (pool : List α),
      ((RNG.sampleAux g pool k).1 : Multiset α) ≤ (pool : Multiset α)
  | 0, g, pool => by simp [sampleAux_zero]
  | _ + 1, g, [] => by simp [sampleAux_nil]
  | k + 1, g, x :: xs => by
    have hj : (g.randbelow (xs.length + 1)).1 < (x :: xs).length := by
      simpa using Nat.mod_lt _ (Nat.succ_pos xs.length)
    have ih := sampleAux_coe_le k (g.randbelow (xs.length + 1)).2
      ((x :: xs).eraseIdx (g.randbelow (xs.length + 1)).1)
    have hperm := getD_cons_eraseIdx_perm (x :: xs) (g.randbelow (xs.length + 1)).1 hj x
    calc ((RNG.sampleAux g (x :: xs) (k + 1)).1 : Multiset α)
        = ((x :: xs).getD (g.randbelow (xs.length + 1)).1 x) ::ₘ
            ((RNG.sampleAux (g.randbelow (xs.length + 1)).2
              ((x :: xs).eraseIdx (g.randbelow (xs.length + 1)).1) k).1 : Multiset α) := by
          rw [sampleAux_cons, Multiset.cons_coe]
      _ ≤ ((x :: xs).getD (g.randbelow (xs.length + 1)).1 x) ::ₘ
            (((x :: xs).eraseIdx (g.randbelow (xs.length + 1)).1 : List α) : Multiset α) :=
          Multiset.cons_le_cons _ ih
      _ = ((x :: xs : List α) : Multiset α) := by
          rw [Multiset.cons_coe]; exact Multiset.coe_eq_coe.mpr hperm

theorem sampleAux_length :
    ∀ (k : Nat) (g : RNG) (pool : List α),
      (RNG.sampleAux g pool k).1.length = min k pool.length
  | 0, g, pool => by simp [sampleAux_zero]
  | _ + 1, g, [] => by simp [sampleAux_nil]
  | k + 1, g, x :: xs => by
    have hj : (g.randbelow (xs.length + 1)).1 < (x :: xs).length := by
      simpa using Nat.mod_lt _ (Nat.succ_pos xs.length)
    have ih := sampleAux_length k (g.randbelow (xs.length + 1)).2
      ((x :: xs).eraseIdx (g.randbelow (xs.length + 1)).1)
    have hlen : ((x :: xs).eraseIdx (g.randbelow (xs.length + 1)).1).length = xs.length := by
      rw [List.length_eraseIdx_of_lt hj]; simp
    simp [sampleAux_cons, ih, hlen, Nat.succ_min_succ]

theorem sampleAux_full_perm (g : RNG) (items : List α) :
    ((RNG.sampleAux g items items.length).1).Perm items := by
  have hlen := sampleAux_length items.length g items
  have hle := sampleAux_coe_le items.length g items
  have hcard : Multiset.card (items : Multiset α) ≤
      Multiset.card ((RNG.sampleAux g items items.length).1 : Multiset α) := by
    simp [Multiset.coe_card, hlen]
  exact Multiset.coe_eq_coe.mp (Multiset.eq_of_le_of_card_le hle hcard)

/-! ## Helper lemmas about the integer stream -/

theorem randrange_empty (g : RNG) {lower upper : Int} (h : upper ≤ lower) :
    g.randrange lower upper = .error .emptyRange := by
  unfold RNG.randrange; rw [if_pos h]

theorem randrange_mem (g : RNG) {lower upper : Int} (h : lower < upper) :
    ∃ v g', g.randrange lower upper = .ok (v, g') ∧ lower ≤ v ∧ v < upper := by
  refine ⟨lower + ((g.randbelow (upper - lower).toNat).1 : Int),
    (g.randbelow (upper - lower).toNat).2, ?_, ?_, ?_⟩
  · unfold RNG.randrange; rw [if_neg (not_le.mpr h)]
  · have : (0 : Int) ≤ ((g.randbelow (upper - lower).toNat).1 : Int) :=
      Int.ofNat_nonneg _
    omega
  · have hw : 0 < (upper - lower).toNat := by omega
    have hb : (g.randbelow (upper - lower).toNat).1 < (upper - lower).toNat :=
      Nat.mod_lt _ hw
    omega

theorem intsAux_zero (g : RNG) (lower upper : Int) :
    intsAux g lower upper 0 = .ok ([], g) := rfl

theorem intsAux_succ (g : RNG) (lower upper : Int) (n : Nat) :
    intsAux g lower upper (n + 1) =
      (match g.randrange lower upper with
       | .error e => .error e
       | .ok vg =>
         match intsAux vg.2 lower upper n with
         | .error e => .error e
         | .ok lg => .ok (vg.1 :: lg.1, lg.2)) := rfl

theorem intsAux_empty_range (g : RNG) {lower upper : Int} (h : upper ≤ lower)
    (n : Nat) : intsAux g lower upper (n + 1) = .error .emptyRange := by
  rw [intsAux_succ, randrange_empty g h]

theorem intsAux_ok {lower upper : Int} (h : lower < upper) :
    ∀ (n : Nat) (g : RNG), ∃ l g', intsAux g lower upper n = .ok (l, g') ∧
      l.length = n ∧ ∀ v ∈ l, lower ≤ v ∧ v < upper
  | 0, g => ⟨[], g, rfl, rfl, by simp⟩
  | n + 1, g => by
    obtain ⟨v, g1, hr, hv1, hv2⟩ := randrange_mem g h
    obtain ⟨l, g2, hl, hlen, hmem⟩ := intsAux_ok h n g1
    refine ⟨v :: l, g2, ?_, by simp [hlen], ?_⟩
    · rw [intsAux_succ, hr]
      simp only
      rw [hl]
    · intro w hw
      rcases List.mem_cons.mp hw with hw | hw
      · subst hw; exact ⟨hv1, hv2⟩
      · exact hmem w hw

theorem IntStream.toList_mk (n : Nat) (lower upper : Int) (g : RNG) :
    IntStream.toList ⟨n, lower, upper, g⟩ = intsAux g lower upper n := rfl

theorem IntStream.next_zero (lower upper : Int) (g : RNG) :
    IntStream.next ⟨0, lower, upper, g⟩ = Option.none := rfl

theorem IntStream.next_succ (n : Nat) (lower upper : Int) (g : RNG) :
    IntStream.next ⟨n + 1, lower, upper, g⟩ =
      (match g.randrange lower upper with
       | .error e => some (.error e)
       | .ok vg => some (.ok (vg.1, ⟨n, lower, upper, vg.2⟩))) := rfl

/-! ## Helper lemmas about `draw` -/

theorem draw_eq_body {α : Type} (items : List α) ( replace : Bool) (size : Int)
    (seed : Seed) (g : RNG) (hg : get_rng seed = .ok g) :
    draw items replace size seed =
      (match drawR items replace size g with
       | (.error e, _) => .error e
       | (.ok r, g') => .ok (r, g')) := by
  unfold draw; rw [hg]; rfl

theorem drawR_neg {α : Type} (items : List α) ( replace : Bool) {size : Int}
    (g : RNG) (hneg : size < 0) :
    drawR items replace size g = (.error .invalidSize, g) := by
  unfold drawR; rw [if_pos hneg]

theorem drawR_empty_or_zero {α : Type} (items : List α) ( replace : Bool)
    {size : Int} (g : RNG) (h0 : ¬ size < 0)
    (h : items.length = 0 ∨ size = 0) :
    drawR items replace size g = (.ok [], g) := by
  unfold drawR; rw [if_neg h0, if_pos h]

theorem drawR_sample_err {α : Type} {items : List α} {size : Int} (g : RNG)
    (hne : items ≠ []) (hlen : (items.length : Int) < size) :
    drawR items false size g = (.error .invalidSize, g) := by
  have hlen0 : items.length ≠ 0 := fun h => hne (List.length_eq_zero.mp h)
  have h0 : ¬ size < 0 := by omega
  have hns : ¬ (items.length = 0 ∨ size = 0) := by
    push_neg; exact ⟨hlen0, by omega⟩
  have hlt : items.length < size.toNat := by omega
  unfold drawR RNG.sample
  rw [if_neg h0, if_neg hns, if_neg Bool.false_ne_true, if_pos hlt]

theorem drawR_sample_ok {α : Type} {items : List α} {size : Int} (g : RNG)
    (hne : items ≠ []) (hpos : 0 < size) (hle : size ≤ (items.length : Int)) :
    drawR items false size g =
      (.ok (RNG.sampleAux g items size.toNat).1,
       (RNG.sampleAux g items size.toNat).2) := by
  have hlen0 : items.length ≠ 0 := fun h => hne (List.length_eq_zero.mp h)
  have h0 : ¬ size < 0 := by omega
  have hns : ¬ (items.length = 0 ∨ size = 0) := by
    push_neg; exact ⟨hlen0, by omega⟩
  have hnotlt : ¬ items.length < size.toNat := by omega
  unfold drawR RNG.sample
  rw [if_neg h0, if_neg hns, if_neg Bool.false_ne_true, if_neg hnotlt]

/-! ## Claim theorems -/

/-- C2: for every integer seed `s`, two independent resolutions
`get_rng(s)` produce equal generators, hence identical subsequent draw
sequences of any length `k`. -/
theorem get_rng_int_deterministic (s : Int) (k : Nat) (g1 g2 : RNG)
    (h1 : get_rng (Seed.int s) = .ok g1)
    (h2 : get_rng (Seed.int s) = .ok g2) :
    g1 = g2 ∧ g1.outputs k = g2.outputs k := by
  have e1 : RNG.ofInt s = g1 := by simpa [get_rng] using h1
  have e2 : RNG.ofInt s = g2 := by simpa [get_rng] using h2
  subst e1; subst e2
  exact ⟨rfl, rfl⟩

/-- C2 witness at seed 42, sequence length 3. -/
theorem get_rng_int_deterministic_witness :
    RNG.mk 42 = RNG.mk 42 ∧
    (RNG.mk 42).outputs 3 = (RNG.mk 42).outputs 3 :=
  get_rng_int_deterministic 42 3 (RNG.mk 42) (RNG.mk 42) (by rfl) (by rfl)

/-- C3: resolving an existing generator instance is pass-through: the exact
generator is returned, with its state untouched. -/
theorem get_rng_passthrough (g : RNG) : get_rng (Seed.rng g) = .ok g := rfl

/-- C10: seed resolution comes first: an invalid seed makes `integers` fail
with `InvalidSeed` eagerly at construction (before any element is consumed,
any `size` including zero, no validation of the bounds), and makes `draw`
fail with `InvalidSeed` even when `size` is negative. -/
theorem invalid_seed_eager {α : Type} (items : List α) ( replace : Bool)
    (size size2 lower upper : Int) :
    integers size2 lower upper Seed.other = .error .invalidSeed ∧
    draw items replace size Seed.other = .error .invalidSeed :=
  ⟨rfl, rfl⟩

/-- C4: with a valid seed, a negative `size` makes `draw` fail with
`InvalidSize`, and (without replacement, non-empty items) so does
`size > len(items)`; in both cases the resolved generator is returned
unchanged by the body — no draw happened before the failure. -/
theorem draw_invalid_size {α : Type} (items : List α) ( replace : Bool)
    (size : Int) (seed : Seed) (g : RNG) (hg : get_rng seed = .ok g) :
    (size < 0 →
      draw items replace size seed = .error .invalidSize ∧
      drawR items replace size g = (.error .invalidSize, g)) ∧
    (replace = false → items ≠ [] → (items.length : Int) < size →
      draw items replace size seed = .error .invalidSize ∧
      drawR items replace size g = (.error .invalidSize, g)) := by
  constructor
  · intro hneg
    have hR := drawR_neg items replace g hneg
    exact ⟨by rw [draw_eq_body items replace size seed g hg, hR], hR⟩
  · intro hrep hne hlen
    subst hrep
    have hR := drawR_sample_err g hne hlen
    exact ⟨by rw [draw_eq_body items false size seed g hg, hR], hR⟩

/-- C4 witness: both failure scenarios at concrete inputs. -/
theorem draw_invalid_size_witness :
    (draw [1, 2, 3] false (-1) (Seed.int 0) = .error .invalidSize ∧
     drawR [1, 2, 3] false (-1) (RNG.mk 0) = (.error .invalidSize, RNG.mk 0)) ∧
    (draw [5] false 2 (Seed.int 0) = .error .invalidSize ∧
     drawR [5] false 2 (RNG.mk 0) = (.error .invalidSize, RNG.mk 0)) :=
  ⟨(draw_invalid_size [1, 2, 3] false (-1) (Seed.int 0) (RNG.mk 0)
      (by rfl)).1 (by decide),
   (draw_invalid_size [5] false 2 (Seed.int 0) (RNG.mk 0)
      (by rfl)).2 rfl (by decide) (by decide)⟩

/-- C1 (amended): with a valid seed, non-empty `items`, `replace = false`
and `0 ≤ size ≤ len(items)`, `draw` succeeds with exactly `size` elements
drawn from distinct positions of `items`: the result's multiset is
contained in that of `items` (hence every element is drawn from `items`,
and the elements are pairwise distinct whenever those of `items` are). -/
theorem draw_without_replacement_spec {α : Type} (items : List α)
    (size : Int) (seed : Seed) (g : RNG) (hg : get_rng seed = .ok g)
    (hne : items ≠ []) (h0 : 0 ≤ size) (hle : size ≤ (items.length : Int)) :
    ∃ l g', draw items false size seed = .ok (l, g') ∧
      (l.length : Int) = size ∧
      (∀ x ∈ l, x ∈ items) ∧
      ((l : Multiset α) ≤ (items : Multiset α)) ∧
      (items.Nodup → l.Nodup) := by
  by_cases hz : size = 0
  · subst hz
    have hR := drawR_empty_or_zero items false g (by omega) (Or.inr rfl)
    refine ⟨[], g, ?_, by simp, by simp, by simp, by simp⟩
    rw [draw_eq_body items false 0 seed g hg, hR]
  · have hpos : 0 < size := by omega
    have hR := drawR_sample_ok g hne hpos hle
    have hlen : (RNG.sampleAux g items size.toNat).1.length = size.toNat := by
      rw [sampleAux_length]; omega
    have hmle := sampleAux_coe_le size.toNat g items
    refine ⟨(RNG.sampleAux g items size.toNat).1,
      (RNG.sampleAux g items size.toNat).2, ?_, by rw [hlen]; omega, ?_,
      hmle, ?_⟩
    · rw [draw_eq_body items false size seed g hg, hR]
    · intro x hx
      have hx' : x ∈ ((RNG.sampleAux g items size.toNat).1 : Multiset α) := by
        simpa using hx
      simpa using Multiset.mem_of_le hmle hx'
    · intro hnd
      have := Multiset.nodup_of_le hmle (by simpa using hnd)
      simpa using this

/-- C1 witness at `items = [1, 2]`, `size = 2`, seed 101. -/
theorem draw_without_replacement_spec_witness :
    ∃ l g', draw [1, 2] false 2 (Seed.int 101) = .ok (l, g') ∧
      (l.length : Int) = 2 ∧
      (∀ x ∈ l, x ∈ [1, 2]) ∧
      ((l : Multiset Nat) ≤ ([1, 2] : List Nat)) ∧
      (([1, 2] : List Nat).Nodup → l.Nodup) :=
  draw_without_replacement_spec [1, 2] 2 (Seed.int 101) (RNG.mk 101)
    (by rfl) (by decide) (by decide) (by decide)

/-- C1 counterexample: the claim's "all distinct" fails when `items` itself
has duplicate values: a without-replacement draw of both positions of
`[0, 0]` returns `[0, 0]`, whose elements are not distinct. -/
theorem draw_without_replacement_distinct_cex :
    draw [0, 0] false 2 (Seed.int 0) =
      .ok ([0, 0], RNG.mk 1876011003808476466) ∧
    ¬ ([0, 0] : List Nat).Nodup :=
  ⟨by rfl, by decide⟩

/-- C5 (amended): with a valid seed and `0 ≤ size`, if `items` is empty or
`size = 0` then `draw` returns an empty sequence and the body leaves the
resolved generator's state unchanged (no draw is performed). -/
theorem draw_short_circuit {α : Type} (items : List α) ( replace : Bool)
    (size : Int) (seed : Seed) (g : RNG) (hg : get_rng seed = .ok g)
    (hsz : 0 ≤ size) (h : items = [] ∨ size = 0) :
    draw items replace size seed = .ok ([], g) ∧
    drawR items replace size g = (.ok [], g) := by
  have hcond : items.length = 0 ∨ size = 0 := by
    rcases h with h | h
    · exact Or.inl (by simp [h])
    · exact Or.inr h
  have hR := drawR_empty_or_zero items replace g (by omega) hcond
  exact ⟨by rw [draw_eq_body items replace size seed g hg, hR], hR⟩

/-- C5 witness: `size = 0` on non-empty items, and empty items with
positive size, both with replacement and without. -/
theorem draw_short_circuit_witness :
    (draw [1, 2] true 0 (Seed.int 7) = .ok ([], RNG.mk 7) ∧
     drawR [1, 2] true 0 (RNG.mk 7) = (.ok [], RNG.mk 7)) ∧
    (draw ([] : List Nat) false 3 (Seed.int 7) = .ok ([], RNG.mk 7) ∧
     drawR ([] : List Nat) false 3 (RNG.mk 7) = (.ok [], RNG.mk 7)) :=
  ⟨draw_short_circuit [1, 2] true 0 (Seed.int 7) (RNG.mk 7) (by rfl)
      (by decide) (Or.inr rfl),
   draw_short_circuit ([] : List Nat) false 3 (Seed.int 7) (RNG.mk 7)
      (by rfl) (by decide) (Or.inl rfl)⟩

/-- C5 counterexample: with empty `items` but negative `size`, `draw` does
not return an empty sequence — the `size < 0` check precedes the empty
short-circuit, so it fails with `InvalidSize`. -/
theorem draw_short_circuit_negative_cex :
    draw ([] : List Nat) false (-1) (Seed.int 0) = .error .invalidSize :=
  by rfl

/-- C7: `shuffle` is exactly a without-replacement draw of size
`len(items)`, and with a valid seed it succeeds with a permutation of
`items` (same multiset, same length); the input list is untouched (the
embedding is pure, the result is a fresh list). -/
theorem shuffle_spec {α : Type} (items : List α) (seed : Seed) (g : RNG)
    (hg : get_rng seed = .ok g) :
    shuffle items seed = draw items false (items.length : Int) seed ∧
    ∃ l g', shuffle items seed = .ok (l, g') ∧ l.Perm items := by
  refine ⟨rfl, ?_⟩
  rcases items with _ | ⟨x, xs⟩
  · refine ⟨[], g, ?_, List.Perm.refl []⟩
    have hR := @drawR_empty_or_zero α ([] : List α) false
      ((([] : List α).length : Int)) g (by simp) (Or.inl rfl)
    unfold shuffle
    rw [draw_eq_body ([] : List α) false _ seed g hg, hR]
  · have hne : (x :: xs) ≠ [] := by simp
    have hpos : (0 : Int) < ((x :: xs).length : Int) := by
      simp
    have hR := drawR_sample_ok g hne hpos le_rfl
    have htn : ((x :: xs).length : Int).toNat = (x :: xs).length := by omega
    refine ⟨(RNG.sampleAux g (x :: xs) ((x :: xs).length)).1,
      (RNG.sampleAux g (x :: xs) ((x :: xs).length)).2, ?_, ?_⟩
    · unfold shuffle
      rw [draw_eq_body (x :: xs) false _ seed g hg, hR, htn]
    · exact sampleAux_full_perm g (x :: xs)

/-- C7 witness at `items = [10, 20, 30]`, seed 101. -/
theorem shuffle_spec_witness :
    shuffle [10, 20, 30] (Seed.int 101) =
      draw [10, 20, 30] false (([10, 20, 30] : List Nat).length : Int)
        (Seed.int 101) ∧
    ∃ l g', shuffle [10, 20, 30] (Seed.int 101) = .ok (l, g') ∧
      l.Perm [10, 20, 30] :=
  shuffle_spec [10, 20, 30] (Seed.int 101) (RNG.mk 101) (by rfl)

/-- C6: with a valid seed and `bias ∈ [0, 1]`, `coinflip` draws one uniform
value `u ∈ [0, 1)` and returns `u < bias`; `bias = 0` always yields false
and `bias = 1` always yields true; any bias outside `[0, 1]` fails with
`InvalidBias` (checked before seed resolution, for any seed). -/
theorem coinflip_spec (bias bias2 : ℚ) (seed seed2 : Seed) (g : RNG)
    (hg : get_rng seed = .ok g) (h0 : 0 ≤ bias) (h1 : bias ≤ 1) :
    coinflip bias seed = .ok (decide (g.randomQ.1 < bias), g.randomQ.2) ∧
    (0 ≤ g.randomQ.1 ∧ g.randomQ.1 < 1) ∧
    coinflip 0 seed = .ok (false, g.randomQ.2) ∧
    coinflip 1 seed = .ok (true, g.randomQ.2) ∧
    (bias2 < 0 ∨ 1 < bias2 → coinflip bias2 seed2 = .error .invalidBias) := by
  have hu0 : 0 ≤ g.randomQ.1 := by
    show 0 ≤ ((g.step.state % 2 ^ 53 : ℕ) : ℚ) / (2 ^ 53 : ℚ)
    exact div_nonneg (Nat.cast_nonneg _) (by norm_num)
  have hu1 : g.randomQ.1 < 1 := by
    show ((g.step.state % 2 ^ 53 : ℕ) : ℚ) / (2 ^ 53 : ℚ) < 1
    rw [div_lt_one (by norm_num)]
    exact_mod_cast Nat.mod_lt _ (by norm_num)
  refine ⟨?_, ⟨hu0, hu1⟩, ?_, ?_, ?_⟩
  · unfold coinflip
    rw [if_neg (not_not_intro ⟨h0, h1⟩), hg]
  · unfold coinflip
    rw [if_neg (not_not_intro ⟨le_refl (0 : ℚ), zero_le_one⟩), hg]
    have hd : decide (g.randomQ.1 < 0) = false :=
      decide_eq_false (not_lt.mpr hu0)
    simp only [hd]
  · unfold coinflip
    rw [if_neg (not_not_intro ⟨zero_le_one, le_refl (1 : ℚ)⟩), hg]
    have hd : decide (g.randomQ.1 < 1) = true := decide_eq_true hu1
    simp only [hd]
  · intro hb
    have : ¬(0 ≤ bias2 ∧ bias2 ≤ 1) := by
      rcases hb with hb | hb
      · exact fun hc => absurd hc.1 (not_le.mpr hb)
      · exact fun hc => absurd hc.2 (not_le.mpr hb)
    unfold coinflip
    rw [if_pos this]

/-- C6 witness: bias 1/2, 0, 1 at seed 0, and bias 2 rejected. -/
theorem coinflip_spec_witness :
    coinflip (1 / 2) (Seed.int 0) =
      .ok (decide ((RNG.mk 0).randomQ.1 < 1 / 2), (RNG.mk 0).randomQ.2) ∧
    coinflip 0 (Seed.int 0) = .ok (false, (RNG.mk 0).randomQ.2) ∧
    coinflip 1 (Seed.int 0) = .ok (true, (RNG.mk 0).randomQ.2) ∧
    coinflip 2 Seed.none = .error .invalidBias := by
  have h := coinflip_spec (1 / 2) 2 (Seed.int 0) Seed.none (RNG.mk 0)
    (by rfl) one_half_pos.le one_half_lt_one.le
  exact ⟨h.1, h.2.2.1, h.2.2.2.1, h.2.2.2.2 (Or.inr one_lt_two)⟩

/-- C8: with a valid seed, `lower < upper` and `0 ≤ size`, the `integers`
stream is constructed successfully and consuming it yields exactly `size`
integers, each in `[lower, upper)`. -/
theorem integers_spec (size lower upper : Int) (seed : Seed) (g : RNG)
    (hg : get_rng seed = .ok g) (hlu : lower < upper) (hsz : 0 ≤ size) :
    ∃ s, integers size lower upper seed = .ok s ∧
      ∃ l g', s.toList = .ok (l, g') ∧ (l.length : Int) = size ∧
        ∀ v ∈ l, lower ≤ v ∧ v < upper := by
  refine ⟨⟨size.toNat, lower, upper, g⟩, ?_, ?_⟩
  · unfold integers; rw [hg]
  · obtain ⟨l, g', hok, hlen, hmem⟩ := intsAux_ok hlu size.toNat g
    exact ⟨l, g', hok, by omega, hmem⟩

/-- C8 witness: two draws from `[0, 5)` at seed 3. -/
theorem integers_spec_witness :
    ∃ s, integers 2 0 5 (Seed.int 3) = .ok s ∧
      ∃ l g', s.toList = .ok (l, g') ∧ (l.length : Int) = 2 ∧
        ∀ v ∈ l, 0 ≤ v ∧ v < 5 :=
  integers_spec 2 0 5 (Seed.int 3) (RNG.mk 3) (by rfl) (by decide)
    (by decide)

/-- C9: with a valid seed and `lower ≥ upper`, constructing the `integers`
stream does not fail; consuming the first element fails with `EmptyRange`
when `size > 0`, and with `size = 0` the stream is empty, performs no draw,
leaves the generator untouched and never validates the bounds. -/
theorem integers_lazy_empty_range (size lower upper : Int) (seed : Seed)
    (g : RNG) (hg : get_rng seed = .ok g) (hul : upper ≤ lower) :
    integers size lower upper seed = .ok ⟨size.toNat, lower, upper, g⟩ ∧
    (0 < size →
      (⟨size.toNat, lower, upper, g⟩ : IntStream).next =
        some (.error .emptyRange) ∧
      (⟨size.toNat, lower, upper, g⟩ : IntStream).toList =
        .error .emptyRange) ∧
    (size = 0 →
      (⟨size.toNat, lower, upper, g⟩ : IntStream).next = Option.none ∧
      (⟨size.toNat, lower, upper, g⟩ : IntStream).toList = .ok ([], g)) := by
  refine ⟨by unfold integers; rw [hg], ?_, ?_⟩
  · intro hpos
    obtain ⟨m, hm⟩ : ∃ m, size.toNat = m + 1 := ⟨size.toNat - 1, by omega⟩
    rw [hm]
    constructor
    · rw [IntStream.next_succ, randrange_empty g hul]
    · rw [IntStream.toList_mk, intsAux_empty_range g hul]
  · intro hz
    subst hz
    exact ⟨IntStream.next_zero lower upper g, rfl⟩

/-- C9 witness: `size = 1` and `size = 0` with the empty range `[5, 3)`
at seed 2. -/
theorem integers_lazy_empty_range_witness :
    (integers 1 5 3 (Seed.int 2) = .ok ⟨1, 5, 3, RNG.mk 2⟩ ∧
     (⟨1, 5, 3, RNG.mk 2⟩ : IntStream).next = some (.error .emptyRange) ∧
     (⟨1, 5, 3, RNG.mk 2⟩ : IntStream).toList = .error .emptyRange) ∧
    (integers 0 5 3 (Seed.int 2) = .ok ⟨0, 5, 3, RNG.mk 2⟩ ∧
     (⟨0, 5, 3, RNG.mk 2⟩ : IntStream).next = Option.none ∧
     (⟨0, 5, 3, RNG.mk 2⟩ : IntStream).toList = .ok ([], RNG.mk 2)) := by
  have h1 := integers_lazy_empty_range 1 5 3 (Seed.int 2) (RNG.mk 2)
    (by rfl) (by decide)
  have h0 := integers_lazy_empty_range 0 5 3 (Seed.int 2) (RNG.mk 2)
    (by rfl) (by decide)
  exact ⟨⟨h1.1, (h1.2.1 (by decide)).1, (h1.2.1 (by decide)).2⟩,
    ⟨h0.1, (h0.2.2 rfl).1, (h0.2.2 rfl).2⟩⟩
